import Mathlib

/-!
Shallow embedding of the chat-completion gateway's provider abstraction and
streaming tool-call accumulator (`app.py`, `backend/chat_provider.py`), with
theorems settling the behavioural claims about the webhook (n8n) provider
path and the Azure OpenAI function-call stream state machine.
-/

namespace Gateway

/-! ## JSON-like payloads

`Payload` models the Python values that flow through the n8n webhook response
handling: `None`, strings, numbers, booleans, JSON lists and JSON objects
(dicts, modelled as association lists with first-key-wins lookup, matching
Python dict semantics where keys are unique). -/

inductive Payload where
  | null : Payload
  | str : String → Payload
  | num : Int → Payload
  | bool : Bool → Payload
  | list : List Payload → Payload
  | obj : List (String × Payload) → Payload
deriving Repr

/-- `getKey fs k` models Python `d.get(k)` on a dict with entries `fs`:
the value of the first entry whose key equals `k`, if any. -/
def getKey (fs : List (String × Payload)) (k : String) : Option Payload :=
  match fs with
  | [] => none
  | (k2, v) :: rest => if k2 == k then some v else getKey rest k

/-- The value of the first key in `ks` whose value in `fs` is a string
(models the `for key in (...): if isinstance(value, str)` probe of
`_extract_n8n_output`). -/
def firstStringValue (fs : List (String × Payload)) : List String → Option String
  | [] => none
  | k :: ks =>
    match getKey fs k with
    | some (.str s) => some s
    | _ => firstStringValue fs ks

/-- The value of the first key in `ks` present in `fs` (models the
`for key in ("data", "result"): if key in payload` probe). -/
def firstPresentKey (fs : List (String × Payload)) : List String → Option Payload
  | [] => none
  | k :: ks =>
    match getKey fs k with
    | some v => some v
    | none => firstPresentKey fs ks

theorem sizeOf_getKey_lt (fs : List (String × Payload)) (k : String) (v : Payload)
    (h : getKey fs k = some v) : sizeOf v < 1 + sizeOf fs := by
  induction fs with
  | nil => simp [getKey] at h
  | cons hd tl ih =>
    obtain ⟨k2, v2⟩ := hd
    simp only [getKey] at h
    split at h
    · cases h
      simp only [List.cons.sizeOf_spec, Prod.mk.sizeOf_spec]
      omega
    · have := ih h
      simp only [List.cons.sizeOf_spec, Prod.mk.sizeOf_spec]
      omega

theorem sizeOf_firstPresentKey_lt (fs : List (String × Payload)) (ks : List String)
    (v : Payload) (h : firstPresentKey fs ks = some v) : sizeOf v < 1 + sizeOf fs := by
  induction ks with
  | nil => simp [firstPresentKey] at h
  | cons k ks ih =>
    simp only [firstPresentKey] at h
    split at h
    · cases h
      exact sizeOf_getKey_lt fs k v (by assumption)
    · exact ih h

/-- Embedding of `_extract_n8n_output` (`app.py` 145-162): probes, in order,
`None`, non-empty lists (recurse into the first element), dicts (a `json`
wrapper key, then the first of the six candidate keys whose value is a
string, then `data`/`result` wrapper keys), plain strings, else empty. -/
def extract_n8n_output : Payload → String
  | .null => ""
  | .list [] => ""
  | .list (x :: _) => extract_n8n_output x
  | .obj fs =>
    match hj : getKey fs "json" with
    | some v => extract_n8n_output v
    | none =>
      match firstStringValue fs ["output", "answer", "response", "text", "content", "message"] with
      | some s => s
      | none =>
        match hd : firstPresentKey fs ["data", "result"] with
        | some v => extract_n8n_output v
        | none => ""
  | .str s => s
  | .num _ => ""
  | .bool _ => ""
termination_by p => sizeOf p
decreasing_by
  · simp
    omega
  · have := sizeOf_getKey_lt fs "json" v hj
    simp
    omega
  · have := sizeOf_firstPresentKey_lt fs ["data", "result"] v hd
    simp
    omega

/-- The extraction procedure exactly as the claim words it (spec §4.2): probe a
`json` wrapper key (unwrap and recurse), then the first of
`output`/`answer`/`response`/`text`/`content`/`message` whose value is a
string, then `data`/`result` wrapper keys (unwrap and recurse), then the
payload itself when it is a plain string, else empty text.  The claim's
procedure says nothing special about list payloads, so a list falls through
to the final "else empty text" case. -/
def extract_spec_claim : Payload → String
  | .obj fs =>
    match hj : getKey fs "json" with
    | some v => extract_spec_claim v
    | none =>
      match firstStringValue fs ["output", "answer", "response", "text", "content", "message"] with
      | some s => s
      | none =>
        match hd : firstPresentKey fs ["data", "result"] with
        | some v => extract_spec_claim v
        | none => ""
  | .str s => s
  | .null => ""
  | .num _ => ""
  | .bool _ => ""
  | .list _ => ""
termination_by p => sizeOf p
decreasing_by
  · have := sizeOf_getKey_lt fs "json" v hj
    simp
    omega
  · have := sizeOf_firstPresentKey_lt fs ["data", "result"] v hd
    simp
    omega

/-- The extraction procedure as the amended claim words it: a `None` payload
yields empty text and a non-empty list payload is first unwrapped to its
first element (recursively); otherwise the probing order of the original
claim applies unchanged. -/
def extract_spec_amended : Payload → String
  | .null => ""
  | .list [] => ""
  | .list (x :: _) => extract_spec_amended x
  | .obj fs =>
    match hj : getKey fs "json" with
    | some v => extract_spec_amended v
    | none =>
      match firstStringValue fs ["output", "answer", "response", "text", "content", "message"] with
      | some s => s
      | none =>
        match hd : firstPresentKey fs ["data", "result"] with
        | some v => extract_spec_amended v
        | none => ""
  | .str s => s
  | .num _ => ""
  | .bool _ => ""
termination_by p => sizeOf p
decreasing_by
  · simp
    omega
  · have := sizeOf_getKey_lt fs "json" v hj
    simp
    omega
  · have := sizeOf_firstPresentKey_lt fs ["data", "result"] v hd
    simp
    omega

/-! ## The n8n request path in `app.py` -/

/-- Python truthiness of an optional string: `None` and `""` are falsy. -/
def pyTruthy : Option String → Bool
  | some s => !(s == "")
  | none => false

/-- Python `a or b` on two optional strings: the first operand when truthy,
otherwise the second. -/
def pyOrOpt (a b : Option String) : Option String :=
  if pyTruthy a then a else b

/-- A message as read by `_get_n8n_session_id`: only the `role` and `id`
fields are consulted; either may be absent. -/
structure ReqMessage where
  role : Option String
  id : Option String
deriving DecidableEq, Repr

/-- The fields of the request body that `_get_n8n_session_id` reads:
`history_metadata.conversation_id`, the top-level `conversation_id`, and the
message list. -/
structure RequestBody where
  history_metadata_conversation_id : Option String
  conversation_id : Option String
  messages : List ReqMessage
deriving DecidableEq, Repr

/-- Embedding of `_get_n8n_session_id` (`app.py` 121-130).  `freshId` stands
for the `str(uuid.uuid4())` value generated when no other source applies.
The Python loop `for message in messages` scans the list in order and
returns the id of the first user-role message carrying a truthy id. -/
def get_n8n_session_id (body : RequestBody) (freshId : String) : String :=
  let conversation_id :=
    pyOrOpt body.history_metadata_conversation_id body.conversation_id
  if pyTruthy conversation_id then conversation_id.getD ""
  else
    match body.messages.find? (fun m => m.role == some "user" && pyTruthy m.id) with
    | some m => m.id.getD ""
    | none => freshId

/-- The session-id derivation exactly as the claim words it: prefer the
conversation id; otherwise the id of the most recent (last) user-role
message that carries an id; otherwise the fresh identifier. -/
def session_id_spec_claim (body : RequestBody) (freshId : String) : String :=
  let conversation_id :=
    pyOrOpt body.history_metadata_conversation_id body.conversation_id
  if pyTruthy conversation_id then conversation_id.getD ""
  else
    match body.messages.reverse.find? (fun m => m.role == some "user" && pyTruthy m.id) with
    | some m => m.id.getD ""
    | none => freshId

/-- The id of the earliest user-role message that carries a (truthy) id, as
the amended claim words it. -/
def firstUserMessageId : List ReqMessage → Option String
  | [] => none
  | m :: rest =>
    if m.role == some "user" && pyTruthy m.id then m.id
    else firstUserMessageId rest

/-- The session-id derivation as the amended claim words it: prefer the
conversation id; otherwise the id of the earliest (first) user-role message
that carries an id; otherwise the fresh identifier. -/
def session_id_spec_amended (body : RequestBody) (freshId : String) : String :=
  let conversation_id :=
    pyOrOpt body.history_metadata_conversation_id body.conversation_id
  if pyTruthy conversation_id then conversation_id.getD ""
  else
    match firstUserMessageId body.messages with
    | some i => i
    | none => freshId

/-- The response envelope built by `_format_n8n_response` (`app.py` 164-173):
`choices` always holds a single entry whose `messages` list is the
`(role, content)` pairs. -/
structure N8nResponse where
  id : String
  model : String
  created : Int
  object : String
  messages : List (String × String)
  history_metadata : Payload
  apim : Option String
deriving Repr

/-- Embedding of `_format_n8n_response` (`app.py` 164-173). -/
def format_n8n_response (message : String) (hm : Payload) (rid : String)
    (ts : Int) (is_streaming : Bool) : N8nResponse :=
  { id := rid
  , model := "n8n"
  , created := ts
  , object := if is_streaming then "chat.completion.chunk" else "chat.completion"
  , messages := [("assistant", message)]
  , history_metadata := hm
  , apim := none }

/-- The possible outcomes of `_send_n8n_request` + `response.raise_for_status()`
+ `response.json()` as observed by `_complete_n8n_request`: a parsed 2xx JSON
payload, an httpx timeout, a non-2xx status error, or a JSON-decoding
failure.  Timeouts and status errors are httpx exceptions (not
`ValueError`s); a JSON-decoding failure raises `json.JSONDecodeError`, which
subclasses `ValueError` in Python, so it carries its own message text `msg`
(the `str(exc)` of the decode error). -/
inductive N8nSendOutcome where
  | ok (payload : Payload)
  | timeout
  | httpStatusError
  | malformedJson (msg : String)
deriving Repr

/-- Embedding of `_complete_n8n_request` (`app.py` 191-211).  `urlSet` and
`tokenSet` say whether `N8N_WEBHOOK_URL` / `N8N_BEARER_TOKEN` are configured
(`_send_n8n_request` raises `ValueError` when either is missing, before any
network call); `outcome` is the result of the network call; `rid` and `ts`
stand for the generated `uuid` and `int(time.time())`.  The `except` clause
substitutes the exception text for a `ValueError` and a fixed error text for
every other exception, always returning a well-formed envelope. -/
def complete_n8n_request (urlSet tokenSet : Bool) (outcome : N8nSendOutcome)
    (hm : Payload) (rid : String) (ts : Int) : N8nResponse :=
  if !urlSet then
    format_n8n_response "N8N_WEBHOOK_URL is required when CHAT_PROVIDER=n8n" hm rid ts false
  else if !tokenSet then
    format_n8n_response "N8N_BEARER_TOKEN is required when CHAT_PROVIDER=n8n" hm rid ts false
  else
    match outcome with
    | .ok payload =>
      let message := extract_n8n_output payload
      if message == "" then
        format_n8n_response "No assistant response returned from n8n" hm rid ts false
      else
        format_n8n_response message hm rid ts false
    | .timeout =>
      format_n8n_response "There was an error contacting the n8n service. Please try again." hm rid ts false
    | .httpStatusError =>
      format_n8n_response "There was an error contacting the n8n service. Please try again." hm rid ts false
    | .malformedJson msg =>
      format_n8n_response msg hm rid ts false

/-! ## The `N8nChatProvider` in `backend/chat_provider.py` -/

mutual

/-- JSON rendering of a payload, modelling the `json.dumps` fallback of
`_extract_assistant_message` (and, approximately, Python `str()` on
container values, whose quoting differs but which no claim depends on). -/
def dumps : Payload → String
  | .null => "null"
  | .bool b => if b then "true" else "false"
  | .num n => toString n
  | .str s => "\"" ++ s ++ "\""
  | .list xs => "[" ++ dumpsList xs ++ "]"
  | .obj fs => "\x7b" ++ dumpsFields fs ++ "\x7d"

/-- Comma-separated rendering of the elements of a JSON list. -/
def dumpsList : List Payload → String
  | [] => ""
  | [x] => dumps x
  | x :: y :: xs => dumps x ++ ", " ++ dumpsList (y :: xs)

/-- Comma-separated rendering of the entries of a JSON object. -/
def dumpsFields : List (String × Payload) → String
  | [] => ""
  | [(k, v)] => "\"" ++ k ++ "\": " ++ dumps v
  | (k, v) :: f :: fs => "\"" ++ k ++ "\": " ++ dumps v ++ ", " ++ dumpsFields (f :: fs)

end

/-- Python `str(value)`: a string renders as itself, everything else via its
textual rendering. -/
def pyStr : Payload → String
  | .str s => s
  | .null => "None"
  | .bool b => if b then "True" else "False"
  | .num n => toString n
  | p => dumps p

/-- Embedding of `N8nChatProvider._extract_assistant_message`
(`chat_provider.py` 173-207): probe `message`, `output`, `response`, `text`
in that order (any value type, passed through `str()`); then, for a
single-entry dict whose value is not `None`, that value; else the JSON
rendering of the whole response. -/
def extract_assistant_message (p : Payload) : String :=
  match p with
  | .obj fs =>
    match getKey fs "message" with
    | some v => pyStr v
    | none =>
      match getKey fs "output" with
      | some v => pyStr v
      | none =>
        match getKey fs "response" with
        | some v => pyStr v
        | none =>
          match getKey fs "text" with
          | some v => pyStr v
          | none =>
            match fs with
            | [(_, .null)] => dumps (.obj fs)
            | [(_, v)] => pyStr v
            | _ => dumps (.obj fs)
  | _ => dumps p

/-- A message as consumed by `N8nChatProvider.send_message`: `role` and
`content` fields, either possibly absent. -/
structure ProviderMessage where
  role : Option String
  content : Option String
deriving DecidableEq, Repr

/-- The chunk built by `N8nChatProvider._format_response_chunk`
(`chat_provider.py` 209-247). -/
structure ProviderChunk where
  id : String
  model : String
  created : String
  object : String
  messages : List (String × String)
  history_metadata : Payload
  apim : String
deriving Repr

/-- Embedding of `_format_response_chunk` (`chat_provider.py` 209-247);
`mid` stands for the generated `uuid` when no message id is supplied. -/
def format_response_chunk (content : String) (hm : Payload) (mid : String)
    (is_final : Bool) : ProviderChunk :=
  { id := mid
  , model := "n8n-webhook"
  , created := ""
  , object := if is_final then "chat.completion" else "chat.completion.chunk"
  , messages := [("assistant", content)]
  , history_metadata := hm
  , apim := "" }

/-- The fixed apology text of `_format_error_response`
(`chat_provider.py` 249-274). -/
def friendlyErrorText : String :=
  "I\x27m sorry, but I encountered an error processing your request. Please try again. If the problem persists, please start a new conversation."

/-- Embedding of `_format_error_response` (`chat_provider.py` 249-274): the
supplied error description is only logged; the chunk always carries the
fixed apology text. -/
def format_error_response (hm : Payload) (mid : String) : ProviderChunk :=
  format_response_chunk friendlyErrorText hm mid true

/-- `user_message` as computed by the `for msg in reversed(messages)` loop of
`send_message`: the `content` (defaulting to `""`) of the last user-role
message, if any user-role message exists. -/
def lastUserContent (msgs : List ProviderMessage) : Option String :=
  (msgs.reverse.find? (fun m => m.role == some "user")).map (fun m => m.content.getD "")

/-- Outcome of `N8nChatProvider._call_n8n_webhook` as observed by
`send_message`: a parsed 2xx JSON payload, or one of the exception classes
of its `except` clauses. -/
inductive WebhookCallResult where
  | success (payload : Payload)
  | timeout
  | httpError
  | unexpectedError
deriving Repr

/-- Embedding of `N8nChatProvider.send_message` (`chat_provider.py` 276-335)
as a pure function: returns the list of yielded chunks together with the
list of `(chatInput, sessionId)` webhook invocations performed.  `sessionId`
stands for the session-manager result and `mid` for the generated chunk id;
`call` is the webhook outcome used if and when the webhook is invoked. -/
def n8n_provider_send_message (msgs : List ProviderMessage) (hm : Payload)
    (sessionId : String) (call : WebhookCallResult) (mid : String) :
    List ProviderChunk × List (String × String) :=
  match lastUserContent msgs with
  | none => ([format_error_response hm mid], [])
  | some c =>
    if c == "" then ([format_error_response hm mid], [])
    else
      match call with
      | .success p =>
        ([format_response_chunk (extract_assistant_message p) hm mid true], [(c, sessionId)])
      | .timeout => ([format_error_response hm mid], [(c, sessionId)])
      | .httpError => ([format_error_response hm mid], [(c, sessionId)])
      | .unexpectedError => ([format_error_response hm mid], [(c, sessionId)])

/-! ## The Azure OpenAI function-call stream accumulator (`app.py` 578-670) -/

/-- The accumulator status values of `AzureOpenaiFunctionCallStreamState.streaming_state`. -/
inductive StreamingState where
  | INITIAL
  | STREAMING
  | COMPLETED
deriving DecidableEq, Repr

/-- Numeric rank of a status along the INITIAL → STREAMING → COMPLETED order. -/
def StreamingState.rank : StreamingState → Nat
  | .INITIAL => 0
  | .STREAMING => 1
  | .COMPLETED => 2

/-- One entry of a `delta.tool_calls` list: `tool_call_chunk.id`,
`tool_call_chunk.function.name` and `tool_call_chunk.function.arguments`,
each possibly `None`. -/
structure ToolCallFragment where
  id : Option String
  name : Option String
  arguments : Option String
deriving DecidableEq, Repr

/-- `completionChunk.choices[i].delta`, reduced to the only field the
accumulator reads: `tool_calls`, which is either `None` or a list of
fragments. -/
structure Delta where
  tool_calls : Option (List ToolCallFragment)
deriving DecidableEq, Repr

/-- A streamed completion chunk, reduced to its `choices` list. -/
structure CompletionChunk where
  choices : List Delta
deriving DecidableEq, Repr

/-- The `current_tool_call` dict opened at a call-start fragment: it carries
`tool_id` and `tool_name` (the `tool_arguments` entry is only assigned at
finalization). -/
structure CurrentToolCall where
  tool_id : String
  tool_name : Option String
deriving DecidableEq, Repr

/-- A finalized entry of the `tool_calls` list: `tool_id`, `tool_name` and
the final `tool_arguments` text. -/
structure CompletedToolCall where
  tool_id : String
  tool_name : Option String
  tool_arguments : String
deriving DecidableEq, Repr

/-- A message appended to `function_messages` at finalization: either the
assistant message carrying `function_call: \x7bname, arguments\x7d` with
`content = None`, or the function-role message carrying the invocation
result. -/
inductive FunctionMessage where
  | assistantCall (name : Option String) (arguments : String)
  | functionResult (tool_call_id : String) (name : Option String) (content : String)
deriving DecidableEq, Repr

/-- Embedding of `AzureOpenaiFunctionCallStreamState` (`app.py` 578-585). -/
structure FCState where
  tool_calls : List CompletedToolCall
  tool_name : String
  tool_arguments_stream : String
  current_tool_call : Option CurrentToolCall
  function_messages : List FunctionMessage
  streaming_state : StreamingState
deriving DecidableEq, Repr

/-- The freshly constructed accumulator state (`__init__`). -/
def initialFCState : FCState :=
  { tool_calls := []
  , tool_name := ""
  , tool_arguments_stream := ""
  , current_tool_call := none
  , function_messages := []
  , streaming_state := .INITIAL }

/-- `x if x else ""` on an optional argument chunk: `None` (and `""`)
contribute the empty string. -/
def argOrEmpty : Option String → String
  | some s => s
  | none => ""

/-- Processing of one fragment by the `for tool_call_chunk in
response_message.tool_calls` loop body (`app.py` 595-610).  A fragment with
a truthy `id` finalizes the in-flight call, if any — appending the NEW
fragment's own arguments to the old call's buffer first — and opens a new
`current_tool_call`; a fragment without an id appends its arguments to the
buffer. -/
def ingestFragment (st : FCState) (f : ToolCallFragment) : FCState :=
  if pyTruthy f.id then
    let st1 :=
      match st.current_tool_call with
      | some cur =>
        let flushed : CompletedToolCall :=
          { tool_id := cur.tool_id
          , tool_name := cur.tool_name
          , tool_arguments := st.tool_arguments_stream ++ argOrEmpty f.arguments }
        { st with
            tool_arguments_stream := ""
          , tool_name := ""
          , tool_calls := st.tool_calls ++ [flushed] }
      | none => st
    { st1 with
        current_tool_call := some
          { tool_id := argOrEmpty f.id
          , tool_name := if st1.tool_name == "" then f.name else some st1.tool_name } }
  else
    { st with tool_arguments_stream := st.tool_arguments_stream ++ argOrEmpty f.arguments }

/-- The messages appended by the `for tool_call in state.tool_calls` loop of
the terminal branch (`app.py` 617-633): for every completed call, in order,
an assistant message carrying the function call and a function-role message
carrying the invocation result. -/
def synthesizedMessages (invoke : Option String → String → String)
    (calls : List CompletedToolCall) : List FunctionMessage :=
  calls.foldl
    (fun acc tc => acc ++
      [ FunctionMessage.assistantCall tc.tool_name tc.tool_arguments
      , FunctionMessage.functionResult tc.tool_id tc.tool_name
          (invoke tc.tool_name tc.tool_arguments) ])
    []

/-- The value returned by one call of `process_function_call_stream`: either
a normal Python return value (`None`, or a status string), or the
`TypeError` raised when the terminal branch subscripts a `None`
`current_tool_call`. -/
inductive StepRet where
  | ret (r : Option StreamingState)
  | raised
deriving DecidableEq, Repr

/-- Embedding of `process_function_call_stream` (`app.py` 588-639) as a pure
state transformer.  `invoke` stands for
`openai_remote_azure_function_call(tool_name, tool_arguments)`.  Python
truthiness of `response_message.tool_calls` distinguishes a non-empty list
(fragment ingestion, falling off the function end returning `None`) from
`None` (the explicit no-tool-calls signal, finalizing when STREAMING) and
everything else (return the status unchanged). -/
def process_function_call_stream (invoke : Option String → String → String)
    (chunk : CompletionChunk) (st : FCState) : FCState × StepRet :=
  match chunk.choices with
  | [] => (st, .ret none)
  | delta :: _ =>
    match delta.tool_calls with
    | some frags =>
      if !frags.isEmpty &&
          (st.streaming_state == .INITIAL || st.streaming_state == .STREAMING) then
        (frags.foldl ingestFragment { st with streaming_state := .STREAMING }, .ret none)
      else
        (st, .ret (some st.streaming_state))
    | none =>
      if st.streaming_state == .STREAMING then
        match st.current_tool_call with
        | none => (st, .raised)
        | some cur =>
          let finished : CompletedToolCall :=
            { tool_id := cur.tool_id
            , tool_name := cur.tool_name
            , tool_arguments := st.tool_arguments_stream }
          let allCalls := st.tool_calls ++ [finished]
          ({ st with
               tool_calls := allCalls
             , function_messages := st.function_messages ++ synthesizedMessages invoke allCalls
             , streaming_state := .COMPLETED }
          , .ret (some .COMPLETED))
      else
        (st, .ret (some st.streaming_state))

/-- The accumulator state after feeding a whole chunk sequence through
`process_function_call_stream`, as the `async for` loop of
`stream_chat_request.generate` does; a raised `TypeError` aborts the loop,
leaving the state as it stood at the raise. -/
def ingestAll (invoke : Option String → String → String) :
    List CompletionChunk → FCState → FCState
  | [], st => st
  | c :: cs, st =>
    match process_function_call_stream invoke c st with
    | (st2, .ret _) => ingestAll invoke cs st2
    | (st2, .raised) => st2

/-- The observable effects of the `generate` loop of `stream_chat_request`
(`app.py` 646-670): the chunks of the first response yielded directly (those
processed while the returned status is INITIAL), the second-round-trip
requests issued (each recorded as the synthesized `function_messages`
extended onto the conversation when the returned status is COMPLETED), the
final accumulator state, and whether the loop was aborted by an
exception. -/
structure GenOutput where
  emitted : List CompletionChunk
  trips : List (List FunctionMessage)
  finalState : FCState
  raised : Bool
deriving DecidableEq, Repr

/-- Embedding of the `generate` loop of `stream_chat_request` (`app.py`
646-670) with function calling enabled: each chunk of the upstream response
is fed to `process_function_call_stream`; a returned INITIAL yields the
formatted chunk; a returned COMPLETED extends the conversation with the
synthesized messages and issues the second round-trip.  After the loop ends
nothing further happens. -/
def generate_loop (invoke : Option String → String → String) :
    List CompletionChunk → FCState → GenOutput
  | [], st => { emitted := [], trips := [], finalState := st, raised := false }
  | c :: cs, st =>
    match process_function_call_stream invoke c st with
    | (st2, .raised) => { emitted := [], trips := [], finalState := st2, raised := true }
    | (st2, .ret r) =>
      let rest := generate_loop invoke cs st2
      { emitted := (if r == some .INITIAL then [c] else []) ++ rest.emitted
      , trips := (if r == some .COMPLETED then [st2.function_messages] else []) ++ rest.trips
      , finalState := rest.finalState
      , raised := rest.raised }

/-! ## Fragment-sequence builders and spec-side expected values -/

/-- A chunk whose single choice's delta carries exactly one tool-call
fragment. -/
def fragChunk (f : ToolCallFragment) : CompletionChunk :=
  { choices := [{ tool_calls := some [f] }] }

/-- The explicit no-tool-calls signal: a chunk with a non-empty `choices`
list whose delta carries `tool_calls = None`. -/
def signalChunk : CompletionChunk :=
  { choices := [{ tool_calls := none }] }

/-- Concatenation of a list of argument-chunk texts in arrival order. -/
def concatAll : List String → String
  | [] => ""
  | a :: rest => a ++ concatAll rest

/-- One logical tool call as it appears on the wire: an id-bearing start
fragment (with its own `name` and `arguments` chunk) followed by
continuation fragments carrying only argument text. -/
structure CallSpec where
  id : String
  name : Option String
  startArg : String
  conts : List String
deriving DecidableEq, Repr

/-- The continuation chunks of a call: one id-less fragment per argument
text. -/
def contChunks : List String → List CompletionChunk
  | [] => []
  | a :: rest => fragChunk { id := none, name := none, arguments := some a } :: contChunks rest

/-- The chunks of one call: its start fragment then its continuations. -/
def callChunks (c : CallSpec) : List CompletionChunk :=
  fragChunk { id := some c.id, name := c.name, arguments := some c.startArg }
    :: contChunks c.conts

/-- The chunks of a list of calls, in call order. -/
def chunksOfCalls : List CallSpec → List CompletionChunk
  | [] => []
  | c :: rest => callChunks c ++ chunksOfCalls rest

/-- A full streamed turn: the chunks of every call followed by the explicit
no-tool-calls signal. -/
def buildChunks (calls : List CallSpec) : List CompletionChunk :=
  chunksOfCalls calls ++ [signalChunk]

/-- The final argument text of each call as the amended claim words it: for
every call but the last, the concatenation of its continuation chunks
followed by the next call's start fragment's own argument chunk; for the
last call, just the concatenation of its continuation chunks.  (Each call's
own start-fragment argument chunk is never part of its own arguments.) -/
def expectedArgs : List CallSpec → List String
  | [] => []
  | [c] => [concatAll c.conts]
  | c :: c2 :: rest => (concatAll c.conts ++ c2.startArg) :: expectedArgs (c2 :: rest)

/-- Intermediate accumulator shape while a run of calls is ingested: the
calls already flushed, the open `current_tool_call` and the argument buffer
accumulated for it. -/
structure RunAcc where
  done : List CompletedToolCall
  cur : CurrentToolCall
  buf : String
deriving DecidableEq, Repr

/-- The flushes performed by a run of call chunk groups starting from an open
call `cur` with buffer `buf`: each new start fragment flushes the open call
with the buffer extended by the start fragment's own argument chunk. -/
def flushRun (cur : CurrentToolCall) (buf : String) : List CallSpec → RunAcc
  | [] => { done := [], cur := cur, buf := buf }
  | c :: rest =>
    let r := flushRun { tool_id := c.id, tool_name := c.name } (concatAll c.conts) rest
    { done := { tool_id := cur.tool_id, tool_name := cur.tool_name
              , tool_arguments := buf ++ c.startArg } :: r.done
    , cur := r.cur
    , buf := r.buf }

/-- The completed calls produced when an open call `cur` with buffer `buf` is
followed by the chunk groups of `calls` and then the terminal signal. -/
def buildExpected (cur : CurrentToolCall) (buf : String) : List CallSpec → List CompletedToolCall
  | [] => [{ tool_id := cur.tool_id, tool_name := cur.tool_name, tool_arguments := buf }]
  | c :: rest =>
    { tool_id := cur.tool_id, tool_name := cur.tool_name, tool_arguments := buf ++ c.startArg }
      :: buildExpected { tool_id := c.id, tool_name := c.name } (concatAll c.conts) rest

/-- A concrete side-effect invoker used by the closed witness and
counterexample theorems. -/
def invoke0 : Option String → String → String := fun _ _ => "tool-result"

/-- A two-call stream whose second start fragment carries a non-empty
argument chunk: call `a` starts with no arguments, call `b` starts bearing
the argument text `X`, then the stream signals no-tool-calls. -/
def staggeredStartChunks : List CompletionChunk :=
  [ fragChunk { id := some "a", name := some "f", arguments := some "" }
  , fragChunk { id := some "b", name := some "g", arguments := some "X" }
  , signalChunk ]

/-- A stream carrying a single tool-call start fragment and then ending with
no further chunks: the explicit no-tool-calls signal never arrives. -/
def danglingCallChunks : List CompletionChunk :=
  [fragChunk { id := some "c1", name := some "lookup", arguments := some "" }]

/-- A request body with no conversation id and two user messages, each
carrying an id. -/
def twoUserBody : RequestBody :=
  { history_metadata_conversation_id := none
  , conversation_id := none
  , messages := [ { role := some "user", id := some "a" }
                , { role := some "user", id := some "b" } ] }

/-- A webhook payload that is a JSON list wrapping an object with an
`output` field. -/
def listWrappedPayload : Payload :=
  .list [.obj [("output", .str "hi")]]

/-! ## Helper lemmas about the accumulator -/

theorem ingestFragment_streaming_state (st : FCState) (f : ToolCallFragment) :
    (ingestFragment st f).streaming_state = st.streaming_state := by
  unfold ingestFragment
  by_cases h : pyTruthy f.id
  · simp only [h, if_true]
    cases st.current_tool_call <;> rfl
  · simp [h]

theorem foldl_ingestFragment_streaming_state (frags : List ToolCallFragment) (st : FCState) :
    (frags.foldl ingestFragment st).streaming_state = st.streaming_state := by
  induction frags generalizing st with
  | nil => rfl
  | cons f fs ih => rw [List.foldl_cons, ih, ingestFragment_streaming_state]

theorem set_streaming_self (st : FCState) (h : st.streaming_state = .STREAMING) :
    { st with streaming_state := .STREAMING } = st := by
  cases st
  simp_all

theorem process_frags (invoke : Option String → String → String)
    (frags : List ToolCallFragment) (rest : List Delta) (st : FCState)
    (hne : frags ≠ [])
    (h : st.streaming_state = .INITIAL ∨ st.streaming_state = .STREAMING) :
    process_function_call_stream invoke
      { choices := { tool_calls := some frags } :: rest } st
    = (frags.foldl ingestFragment { st with streaming_state := .STREAMING }, .ret none) := by
  have hb : (!frags.isEmpty &&
      (st.streaming_state == StreamingState.INITIAL ||
       st.streaming_state == StreamingState.STREAMING)) = true := by
    rcases h with h | h <;> simp [h, List.isEmpty_iff, hne]
  simp [process_function_call_stream, hb]

theorem process_cont (invoke : Option String → String → String) (a : String) (st : FCState)
    (h : st.streaming_state = .STREAMING) :
    process_function_call_stream invoke
      (fragChunk { id := none, name := none, arguments := some a }) st
    = ({ st with tool_arguments_stream := st.tool_arguments_stream ++ a }, .ret none) := by
  rw [fragChunk, process_frags invoke [_] [] st (by simp) (Or.inr h)]
  rw [set_streaming_self st h]
  simp [ingestFragment, pyTruthy, argOrEmpty]

theorem process_start_none (invoke : Option String → String → String)
    (cid : String) (nm sa : Option String) (st : FCState) (hid : cid ≠ "")
    (hstream : st.streaming_state = .INITIAL ∨ st.streaming_state = .STREAMING)
    (hcur : st.current_tool_call = none) (hname : st.tool_name = "") :
    process_function_call_stream invoke
      (fragChunk { id := some cid, name := nm, arguments := sa }) st
    = ({ st with
           streaming_state := .STREAMING
         , current_tool_call := some { tool_id := cid, tool_name := nm } }
      , .ret none) := by
  rw [fragChunk, process_frags invoke [_] [] st (by simp) hstream]
  simp [ingestFragment, pyTruthy, argOrEmpty, hid, hcur, hname]

theorem process_start_some (invoke : Option String → String → String)
    (cid : String) (nm sa : Option String) (st : FCState) (cur : CurrentToolCall)
    (hid : cid ≠ "")
    (hstream : st.streaming_state = .INITIAL ∨ st.streaming_state = .STREAMING)
    (hcur : st.current_tool_call = some cur) (hname : st.tool_name = "") :
    process_function_call_stream invoke
      (fragChunk { id := some cid, name := nm, arguments := sa }) st
    = ({ st with
           streaming_state := .STREAMING
         , tool_arguments_stream := ""
         , tool_name := ""
         , tool_calls := st.tool_calls ++
             [{ tool_id := cur.tool_id
              , tool_name := cur.tool_name
              , tool_arguments := st.tool_arguments_stream ++ argOrEmpty sa }]
         , current_tool_call := some { tool_id := cid, tool_name := nm } }
      , .ret none) := by
  rw [fragChunk, process_frags invoke [_] [] st (by simp) hstream]
  simp [ingestFragment, pyTruthy, argOrEmpty, hid, hcur, hname]

theorem process_signal (invoke : Option String → String → String)
    (st : FCState) (cur : CurrentToolCall)
    (h : st.streaming_state = .STREAMING) (hcur : st.current_tool_call = some cur) :
    process_function_call_stream invoke signalChunk st
    = ({ st with
           tool_calls := st.tool_calls ++
             [{ tool_id := cur.tool_id
              , tool_name := cur.tool_name
              , tool_arguments := st.tool_arguments_stream }]
         , function_messages := st.function_messages ++
             synthesizedMessages invoke (st.tool_calls ++
               [{ tool_id := cur.tool_id
                , tool_name := cur.tool_name
                , tool_arguments := st.tool_arguments_stream }])
         , streaming_state := .COMPLETED }
      , .ret (some .COMPLETED)) := by
  simp [process_function_call_stream, signalChunk, h, hcur]

theorem ingestAll_cons_ret (invoke : Option String → String → String)
    (c : CompletionChunk) (cs : List CompletionChunk) (st st2 : FCState)
    (r : Option StreamingState)
    (h : process_function_call_stream invoke c st = (st2, .ret r)) :
    ingestAll invoke (c :: cs) st = ingestAll invoke cs st2 := by
  rw [ingestAll, h]

theorem ingestAll_conts_append (invoke : Option String → String → String)
    (conts : List String) (ys : List CompletionChunk) (st : FCState)
    (h : st.streaming_state = .STREAMING) :
    ingestAll invoke (contChunks conts ++ ys) st
    = ingestAll invoke ys
        { st with tool_arguments_stream := st.tool_arguments_stream ++ concatAll conts } := by
  induction conts generalizing st with
  | nil =>
    simp only [contChunks, List.nil_append, concatAll, String.append_empty]
  | cons a rest ih =>
    rw [contChunks, List.cons_append,
        ingestAll_cons_ret invoke _ _ st _ none (process_cont invoke a st h),
        ih { st with tool_arguments_stream := st.tool_arguments_stream ++ a } h,
        concatAll, ← String.append_assoc]

theorem ingestAll_run (invoke : Option String → String → String)
    (calls : List CallSpec) (ys : List CompletionChunk) (st : FCState)
    (cur : CurrentToolCall)
    (hids : ∀ c ∈ calls, c.id ≠ "")
    (h1 : st.streaming_state = .STREAMING) (h2 : st.tool_name = "")
    (h3 : st.current_tool_call = some cur) :
    ingestAll invoke (chunksOfCalls calls ++ ys) st
    = ingestAll invoke ys
        { st with
            tool_calls := st.tool_calls ++ (flushRun cur st.tool_arguments_stream calls).done
          , current_tool_call := some (flushRun cur st.tool_arguments_stream calls).cur
          , tool_arguments_stream := (flushRun cur st.tool_arguments_stream calls).buf } := by
  induction calls generalizing st cur with
  | nil =>
    simp only [chunksOfCalls, List.nil_append, flushRun, List.append_nil, ← h3]
  | cons c rest ih =>
    have hc : c.id ≠ "" := hids c (by simp)
    have hrest : ∀ x ∈ rest, x.id ≠ "" := fun x hx => hids x (by simp [hx])
    rw [chunksOfCalls, callChunks, List.append_assoc, List.cons_append,
        ingestAll_cons_ret invoke _ _ st _ none
          (process_start_some invoke c.id c.name (some c.startArg) st cur hc (Or.inr h1) h3 h2)]
    rw [ingestAll_conts_append invoke c.conts _ _ (by rfl)]
    rw [ih _ { tool_id := c.id, tool_name := c.name } hrest (by rfl) (by rfl) (by rfl)]
    cases st
    simp_all [flushRun, argOrEmpty, String.empty_append, List.append_assoc]

theorem flushRun_buildExpected (calls : List CallSpec) (cur : CurrentToolCall) (buf : String) :
    (flushRun cur buf calls).done ++
      [{ tool_id := (flushRun cur buf calls).cur.tool_id
       , tool_name := (flushRun cur buf calls).cur.tool_name
       , tool_arguments := (flushRun cur buf calls).buf }]
    = buildExpected cur buf calls := by
  induction calls generalizing cur buf with
  | nil => simp [flushRun, buildExpected]
  | cons c rest ih => simp [flushRun, buildExpected, ih]

theorem buildExpected_expectedArgs (rest : List CallSpec) (c : CallSpec) :
    buildExpected { tool_id := c.id, tool_name := c.name } (concatAll c.conts) rest
    = List.zipWith
        (fun (cc : CallSpec) (a : String) =>
          ({ tool_id := cc.id, tool_name := cc.name, tool_arguments := a } : CompletedToolCall))
        (c :: rest) (expectedArgs (c :: rest)) := by
  induction rest generalizing c with
  | nil => simp [buildExpected, expectedArgs]
  | cons c2 rest ih => simp [buildExpected, expectedArgs, ih]

theorem process_streaming_state_cases (invoke : Option String → String → String)
    (chunk : CompletionChunk) (st : FCState) :
    (process_function_call_stream invoke chunk st).1.streaming_state = st.streaming_state
    ∨ ((st.streaming_state = .INITIAL ∨ st.streaming_state = .STREAMING)
        ∧ (process_function_call_stream invoke chunk st).1.streaming_state = .STREAMING)
    ∨ (st.streaming_state = .STREAMING
        ∧ (process_function_call_stream invoke chunk st).1.streaming_state = .COMPLETED) := by
  rcases chunk with ⟨_ | ⟨⟨tcs⟩, ds⟩⟩
  · left
    rfl
  · rcases tcs with _ | frags
    · by_cases hs : st.streaming_state = .STREAMING
      · rcases hcur : st.current_tool_call with _ | cur
        · left
          simp [process_function_call_stream, hs, hcur]
        · right
          right
          refine ⟨hs, ?_⟩
          simp [process_function_call_stream, hs, hcur]
      · left
        simp [process_function_call_stream, hs]
    · by_cases hb : (!frags.isEmpty &&
          (st.streaming_state == StreamingState.INITIAL ||
           st.streaming_state == StreamingState.STREAMING)) = true
      · right
        left
        have hd : st.streaming_state = .INITIAL ∨ st.streaming_state = .STREAMING := by
          rcases Bool.and_eq_true_iff.mp hb with ⟨-, h2⟩
          rcases Bool.or_eq_true_iff.mp h2 with h | h
          · exact Or.inl (by simpa using h)
          · exact Or.inr (by simpa using h)
        refine ⟨hd, ?_⟩
        simp [process_function_call_stream, hb, foldl_ingestFragment_streaming_state]
      · left
        simp [process_function_call_stream, hb]

theorem process_rank_le (invoke : Option String → String → String)
    (chunk : CompletionChunk) (st : FCState) :
    st.streaming_state.rank
      ≤ (process_function_call_stream invoke chunk st).1.streaming_state.rank := by
  rcases process_streaming_state_cases invoke chunk st with h | ⟨h1, h2⟩ | ⟨h1, h2⟩
  · rw [h]
  · rw [h2]
    rcases h1 with h1 | h1 <;> simp [h1, StreamingState.rank]
  · rw [h2, h1]
    simp [StreamingState.rank]

/-! ## Claim theorems -/

/-- C7: for every ingest step (and every chunk sequence) fed to the
accumulator, `streaming_state` only ever moves forward along
INITIAL → STREAMING → COMPLETED: its rank never decreases, a COMPLETED
status is never changed by a further ingest, and a status can only be
INITIAL after a step if it was INITIAL before (so STREAMING never moves
back to INITIAL). -/
theorem accumulator_status_forward_only
    (invoke : Option String → String → String) (chunk : CompletionChunk) (st : FCState) :
    st.streaming_state.rank
      ≤ (process_function_call_stream invoke chunk st).1.streaming_state.rank
    ∧ (st.streaming_state = .COMPLETED →
        (process_function_call_stream invoke chunk st).1.streaming_state = .COMPLETED)
    ∧ ((process_function_call_stream invoke chunk st).1.streaming_state = .INITIAL →
        st.streaming_state = .INITIAL)
    ∧ ∀ chunks : List CompletionChunk,
        st.streaming_state.rank ≤ (ingestAll invoke chunks st).streaming_state.rank := by
  refine ⟨process_rank_le invoke chunk st, ?_, ?_, ?_⟩
  · intro hC
    rcases process_streaming_state_cases invoke chunk st with h | ⟨h1, h2⟩ | ⟨h1, h2⟩
    · rw [h, hC]
    · rcases h1 with h1 | h1 <;> rw [h1] at hC <;> exact absurd hC (by simp)
    · rw [h1] at hC
      exact absurd hC (by simp)
  · intro hI
    rcases process_streaming_state_cases invoke chunk st with h | ⟨h1, h2⟩ | ⟨h1, h2⟩
    · rw [← h, hI]
    · rw [h2] at hI
      exact absurd hI (by simp)
    · rw [h2] at hI
      exact absurd hI (by simp)
  · intro chunks
    induction chunks generalizing st with
    | nil => exact Nat.le_refl _
    | cons c cs ih =>
      have hstep := process_rank_le invoke c st
      rcases hp : process_function_call_stream invoke c st with ⟨st2, sr⟩
      rw [hp] at hstep
      rcases sr with r | _
      · rw [ingestAll, hp]
        exact Nat.le_trans hstep (ih st2)
      · rw [ingestAll, hp]
        exact hstep

/-- C7 witness: a COMPLETED accumulator stays COMPLETED when the explicit
no-tool-calls signal is ingested. -/
theorem accumulator_status_forward_only_witness :
    (process_function_call_stream invoke0 signalChunk
      { tool_calls := []
      , tool_name := ""
      , tool_arguments_stream := ""
      , current_tool_call := none
      , function_messages := []
      , streaming_state := .COMPLETED }).1.streaming_state = .COMPLETED :=
  (accumulator_status_forward_only invoke0 signalChunk _).2.1 rfl

/-- C8: when the accumulator status is already COMPLETED, ingesting the
explicit no-tool-calls signal (a chunk with a non-empty `choices` list whose
delta carries `tool_calls = None`) returns COMPLETED and leaves the state
exactly unchanged. -/
theorem completed_signal_noop
    (invoke : Option String → String → String) (delta : Delta) (ds : List Delta)
    (st : FCState)
    (hC : st.streaming_state = .COMPLETED) (hd : delta.tool_calls = none) :
    process_function_call_stream invoke { choices := delta :: ds } st
    = (st, .ret (some .COMPLETED)) := by
  simp [process_function_call_stream, hd, hC]

/-- C8 witness: the no-op at a concrete COMPLETED state. -/
theorem completed_signal_noop_witness :
    process_function_call_stream invoke0 signalChunk
      { tool_calls := [{ tool_id := "a", tool_name := some "f", tool_arguments := "x" }]
      , tool_name := ""
      , tool_arguments_stream := ""
      , current_tool_call := some { tool_id := "a", tool_name := some "f" }
      , function_messages := []
      , streaming_state := .COMPLETED }
    = ({ tool_calls := [{ tool_id := "a", tool_name := some "f", tool_arguments := "x" }]
       , tool_name := ""
       , tool_arguments_stream := ""
       , current_tool_call := some { tool_id := "a", tool_name := some "f" }
       , function_messages := []
       , streaming_state := .COMPLETED }, .ret (some .COMPLETED)) :=
  completed_signal_noop invoke0 { tool_calls := none } [] _ rfl rfl

/-- C6: a fragment sequence of exactly one id-bearing start fragment, then
continuation fragments without an id, then the explicit no-tool-calls
signal, finalizes a single call whose arguments are the concatenation of the
continuation fragments' argument chunks in arrival order (the start
fragment's own argument chunk is dropped by the code and does not appear). -/
theorem single_call_arguments_concat
    (invoke : Option String → String → String) (cid : String) (nm : Option String)
    (sa : String) (conts : List String) (hid : cid ≠ "") :
    (ingestAll invoke
        (buildChunks [{ id := cid, name := nm, startArg := sa, conts := conts }])
        initialFCState).tool_calls
    = [{ tool_id := cid, tool_name := nm, tool_arguments := concatAll conts }] := by
  rw [buildChunks, chunksOfCalls, chunksOfCalls, List.append_nil, callChunks, List.cons_append,
      ingestAll_cons_ret invoke _ _ initialFCState _ none
        (process_start_none invoke cid nm (some sa) initialFCState hid (Or.inl rfl) rfl rfl),
      ingestAll_conts_append invoke conts [signalChunk] _ rfl,
      ingestAll_cons_ret invoke _ _ _ _ (some .COMPLETED)
        (process_signal invoke _ { tool_id := cid, tool_name := nm } rfl rfl)]
  simp [ingestAll, initialFCState, String.empty_append]

/-- C6 witness: a concrete single-call stream with two continuation
chunks. -/
theorem single_call_arguments_concat_witness :
    (ingestAll invoke0
        (buildChunks [{ id := "c1", name := some "lookup", startArg := "", conts := ["ab", "cd"] }])
        initialFCState).tool_calls
    = [{ tool_id := "c1", tool_name := some "lookup", tool_arguments := "abcd" }] := by
  rw [single_call_arguments_concat invoke0 "c1" (some "lookup") "" ["ab", "cd"] (by decide)]
  rfl

/-- C1 counterexample: in `staggeredStartChunks` no fragment at all arrives
strictly between call `a`'s start fragment and call `b`'s start fragment, so
the claim requires call `a`'s final arguments to be the empty concatenation
`""`; the code instead folds the `b` start fragment's own argument chunk
`"X"` into call `a`'s buffer before flushing it, so call `a` finalizes with
arguments `"X" ≠ ""`. -/
theorem multi_call_strictly_between_counterexample :
    (ingestAll invoke0 staggeredStartChunks initialFCState).tool_calls
      = [ { tool_id := "a", tool_name := some "f", tool_arguments := "X" }
        , { tool_id := "b", tool_name := some "g", tool_arguments := "" } ]
    ∧ ("X" : String) ≠ "" := by
  constructor
  · decide
  · decide

/-- C1 (amended): for every multi-call fragment sequence, `tool_calls`
preserves call-start order, and each call's final arguments are the
concatenation of the argument chunks that arrived strictly between its start
fragment and the next call's start fragment, followed by the next call's
start fragment's own argument chunk (the last call, flushed by the terminal
signal, gets only the strictly-between chunks; a call's own start-fragment
argument chunk never contributes to its own arguments). -/
theorem multi_call_completed_calls_shape
    (invoke : Option String → String → String) (calls : List CallSpec)
    (hne : calls ≠ []) (hids : ∀ c ∈ calls, c.id ≠ "") :
    (ingestAll invoke (buildChunks calls) initialFCState).tool_calls
    = List.zipWith
        (fun (cc : CallSpec) (a : String) =>
          ({ tool_id := cc.id, tool_name := cc.name, tool_arguments := a } : CompletedToolCall))
        calls (expectedArgs calls) := by
  rcases calls with _ | ⟨c, rest⟩
  · exact absurd rfl hne
  · have hc : c.id ≠ "" := hids c (by simp)
    have hrest : ∀ x ∈ rest, x.id ≠ "" := fun x hx => hids x (by simp [hx])
    rw [buildChunks, chunksOfCalls, callChunks, List.cons_append, List.cons_append,
        ingestAll_cons_ret invoke _ _ initialFCState _ none
          (process_start_none invoke c.id c.name (some c.startArg) initialFCState hc
            (Or.inl rfl) rfl rfl),
        List.append_assoc,
        ingestAll_conts_append invoke c.conts _ _ rfl,
        ingestAll_run invoke rest [signalChunk] _ { tool_id := c.id, tool_name := c.name }
          hrest rfl rfl rfl,
        ingestAll_cons_ret invoke _ _ _ _ (some .COMPLETED)
          (process_signal invoke _
            (flushRun { tool_id := c.id, tool_name := c.name }
              (initialFCState.tool_arguments_stream ++ concatAll c.conts) rest).cur rfl rfl)]
    simp [ingestAll, initialFCState, String.empty_append, flushRun_buildExpected,
          buildExpected_expectedArgs]

/-- C1 (amended) witness: two concrete calls; call `a` picks up call `b`'s
start-fragment argument chunk (empty here), and each call's arguments are
its continuation chunks in arrival order. -/
theorem multi_call_completed_calls_shape_witness :
    (ingestAll invoke0
        (buildChunks
          [ { id := "a", name := some "f", startArg := "", conts := ["x", "y"] }
          , { id := "b", name := some "g", startArg := "", conts := ["z"] } ])
        initialFCState).tool_calls
    = [ { tool_id := "a", tool_name := some "f", tool_arguments := "xy" }
      , { tool_id := "b", tool_name := some "g", tool_arguments := "z" } ] := by
  rw [multi_call_completed_calls_shape invoke0
        [ { id := "a", name := some "f", startArg := "", conts := ["x", "y"] }
        , { id := "b", name := some "g", startArg := "", conts := ["z"] } ]
        (by decide) (by decide)]
  rfl

/-- C2: evaluation of the `generate` loop of `stream_chat_request` on a
stream that ends while the accumulator is STREAMING.  The loop simply ends:
the dangling in-progress call (`c1`/`lookup`) is never pushed to
`tool_calls`, no side effect is invoked, no messages are synthesized, and no
second round-trip is issued — the loop does NOT treat end-of-stream like the
explicit no-tool-calls signal, so the in-progress call is lost, contradicting
the claim (and the spec requirement it quotes). -/
theorem stream_end_while_streaming_loses_call :
    generate_loop invoke0 danglingCallChunks initialFCState
    = { emitted := []
      , trips := []
      , finalState :=
          { tool_calls := []
          , tool_name := ""
          , tool_arguments_stream := ""
          , current_tool_call := some { tool_id := "c1", tool_name := some "lookup" }
          , function_messages := []
          , streaming_state := .STREAMING }
      , raised := false } := by
  decide

theorem lastUserContent_eq_none (msgs : List ProviderMessage)
    (h : ∀ m ∈ msgs, m.role ≠ some "user") : lastUserContent msgs = none := by
  have hf : msgs.reverse.find? (fun m => m.role == some "user") = none := by
    apply List.find?_eq_none.mpr
    intro m hm
    have := h m (List.mem_reverse.mp hm)
    simpa using this
  simp [lastUserContent, hf]

/-- C3: when no message in the conversation has role `user`, the n8n
provider's `send_message` yields exactly the fixed apology-style error chunk
and performs no webhook network call; the chunk's single message is the
assistant-role apology text. -/
theorem n8n_provider_no_user_message
    (msgs : List ProviderMessage) (hm : Payload) (sessionId : String)
    (call : WebhookCallResult) (mid : String)
    (h : ∀ m ∈ msgs, m.role ≠ some "user") :
    n8n_provider_send_message msgs hm sessionId call mid
      = ([format_error_response hm mid], [])
    ∧ (format_error_response hm mid).messages = [("assistant", friendlyErrorText)] := by
  constructor
  · simp [n8n_provider_send_message, lastUserContent_eq_none msgs h]
  · rfl

/-- C3 witness: a concrete conversation holding only an assistant message. -/
theorem n8n_provider_no_user_message_witness :
    n8n_provider_send_message [{ role := some "assistant", content := some "hello" }]
        Payload.null "sess" (.success (.str "ok")) "mid"
      = ([format_error_response Payload.null "mid"], [])
    ∧ (format_error_response Payload.null "mid").messages
      = [("assistant", friendlyErrorText)] :=
  n8n_provider_no_user_message
    [{ role := some "assistant", content := some "hello" }]
    Payload.null "sess" (.success (.str "ok")) "mid" (by decide)

/-- C4 counterexample: on `twoUserBody` the code returns the id of the FIRST
user message (`"a"`), while the claim's derivation (the id of the most
recent, i.e. last, user-role message carrying an id) gives `"b"`. -/
theorem session_id_most_recent_counterexample :
    get_n8n_session_id twoUserBody "fresh" = "a"
    ∧ session_id_spec_claim twoUserBody "fresh" = "b"
    ∧ ("a" : String) ≠ "b" := by
  refine ⟨by decide, by decide, by decide⟩

theorem firstUserMessageId_eq_find (msgs : List ReqMessage) :
    firstUserMessageId msgs
    = (msgs.find? (fun m => m.role == some "user" && pyTruthy m.id)).bind
        (fun m => m.id) := by
  induction msgs with
  | nil => rfl
  | cons m rest ih =>
    by_cases hp : (m.role == some "user" && pyTruthy m.id) = true
    · simp [firstUserMessageId, List.find?, hp]
    · simp [firstUserMessageId, List.find?, hp, ih]

/-- C4 (amended): the session identifier is the
`history_metadata.conversation_id` or top-level `conversation_id` when one
is present (truthy); otherwise the `id` of the EARLIEST (first) user-role
message that carries an id; otherwise the freshly generated identifier. -/
theorem get_n8n_session_id_amended (body : RequestBody) (freshId : String) :
    get_n8n_session_id body freshId = session_id_spec_amended body freshId := by
  unfold get_n8n_session_id session_id_spec_amended
  by_cases hcid : pyTruthy
      (pyOrOpt body.history_metadata_conversation_id body.conversation_id)
  · simp [hcid]
  · simp only [hcid, if_false, Bool.false_eq_true]
    rw [firstUserMessageId_eq_find]
    rcases hfind : body.messages.find? (fun m => m.role == some "user" && pyTruthy m.id)
        with _ | m
    · simp [hfind]
    · have hp := List.find?_some hfind
      have hid : pyTruthy m.id = true := (Bool.and_eq_true_iff.mp hp).2
      rcases hmid : m.id with _ | s
      · rw [hmid] at hid
        exact absurd hid (by simp [pyTruthy])
      · simp [hfind, hmid]

/-- C5 counterexample: the claim's probing procedure (`extract_spec_claim`)
yields empty text on a list payload (a list is neither a dict to probe nor a
plain string), but the code (`extract_n8n_output`) unwraps a non-empty list
to its first element and extracts `"hi"`; so the claimed procedure does not
determine the extracted text on every payload. -/
theorem extract_priority_order_counterexample :
    extract_n8n_output listWrappedPayload = "hi"
    ∧ extract_spec_claim listWrappedPayload = ""
    ∧ ("hi" : String) ≠ "" := by
  refine ⟨?_, ?_, by decide⟩
  · simp [listWrappedPayload, extract_n8n_output, getKey, firstStringValue, firstPresentKey]
  · simp [listWrappedPayload, extract_spec_claim]

/-- C5 (amended): the extracted text is determined by first unwrapping
`None` to empty text and a non-empty list to its first element
(recursively), and otherwise probing exactly in the claimed priority order
(`extract_spec_amended`); and a successful (2xx) call whose extracted text
is empty is treated as an error: `_complete_n8n_request` returns the
error-shaped envelope carrying the `ValueError` text instead of an empty
message. -/
theorem extract_n8n_output_amended :
    (∀ p : Payload, extract_n8n_output p = extract_spec_amended p)
    ∧ ∀ (p : Payload) (hm : Payload) (rid : String) (ts : Int),
        extract_n8n_output p = "" →
        complete_n8n_request true true (.ok p) hm rid ts
        = format_n8n_response "No assistant response returned from n8n" hm rid ts false := by
  constructor
  · intro p
    induction p using extract_n8n_output.induct <;>
      solve
        | simp [extract_n8n_output, extract_spec_amended, *]
        | (rw [extract_n8n_output, extract_spec_amended]
           repeat (split <;> simp_all))
  · intro p hm rid ts h
    simp [complete_n8n_request, h]

/-- C5 (amended) witness: the empty object extracts to empty text, and the
orchestrator then returns the error-shaped envelope. -/
theorem extract_n8n_output_amended_witness :
    extract_n8n_output (.obj []) = extract_spec_amended (.obj [])
    ∧ complete_n8n_request true true (.ok (.obj [])) Payload.null "rid" 7
      = format_n8n_response "No assistant response returned from n8n" Payload.null "rid" 7 false :=
  ⟨extract_n8n_output_amended.1 (.obj [])
  , extract_n8n_output_amended.2 (.obj []) Payload.null "rid" 7
      (by simp [extract_n8n_output, getKey, firstStringValue, firstPresentKey])⟩

/-- C9: the content of the error chunk of `_complete_n8n_request` depends on
the exception class: each `ValueError` puts its own message text into the
envelope — the three raised by the code itself (missing webhook url, missing
bearer token, empty extracted text) and the `json.JSONDecodeError` of a
malformed 2xx payload, which subclasses `ValueError` and so carries the
decode error's own message — while every non-`ValueError` exception
(timeout, HTTP status error) yields the fixed error text; in every case a
well-formed `chat.completion` envelope with a single assistant message is
returned. -/
theorem complete_n8n_request_error_contract
    (urlSet tokenSet : Bool) (outcome : N8nSendOutcome)
    (hm : Payload) (rid : String) (ts : Int) :
    ((complete_n8n_request urlSet tokenSet outcome hm rid ts).object = "chat.completion"
      ∧ ∃ content, (complete_n8n_request urlSet tokenSet outcome hm rid ts).messages
          = [("assistant", content)])
    ∧ (urlSet = false →
        complete_n8n_request urlSet tokenSet outcome hm rid ts
        = format_n8n_response "N8N_WEBHOOK_URL is required when CHAT_PROVIDER=n8n" hm rid ts false)
    ∧ (urlSet = true → tokenSet = false →
        complete_n8n_request urlSet tokenSet outcome hm rid ts
        = format_n8n_response "N8N_BEARER_TOKEN is required when CHAT_PROVIDER=n8n" hm rid ts false)
    ∧ (urlSet = true → tokenSet = true → ∀ p : Payload, outcome = .ok p →
        extract_n8n_output p = "" →
        complete_n8n_request urlSet tokenSet outcome hm rid ts
        = format_n8n_response "No assistant response returned from n8n" hm rid ts false)
    ∧ (urlSet = true → tokenSet = true → ∀ p : Payload, outcome = .ok p →
        extract_n8n_output p ≠ "" →
        complete_n8n_request urlSet tokenSet outcome hm rid ts
        = format_n8n_response (extract_n8n_output p) hm rid ts false)
    ∧ (urlSet = true → tokenSet = true → ∀ msg : String, outcome = .malformedJson msg →
        complete_n8n_request urlSet tokenSet outcome hm rid ts
        = format_n8n_response msg hm rid ts false)
    ∧ (urlSet = true → tokenSet = true →
        (outcome = .timeout ∨ outcome = .httpStatusError) →
        complete_n8n_request urlSet tokenSet outcome hm rid ts
        = format_n8n_response "There was an error contacting the n8n service. Please try again."
            hm rid ts false) := by
  refine ⟨?_, ?_, ?_, ?_, ?_, ?_, ?_⟩
  · cases urlSet <;> cases tokenSet <;> rcases outcome with p | _ | _ | msg <;>
      simp [complete_n8n_request, format_n8n_response] <;>
      by_cases hp : extract_n8n_output p = "" <;> simp [hp]
  · intro h
    subst h
    rfl
  · intro h1 h2
    subst h1
    subst h2
    rfl
  · intro h1 h2 p hp he
    subst h1
    subst h2
    subst hp
    simp [complete_n8n_request, he]
  · intro h1 h2 p hp he
    subst h1
    subst h2
    subst hp
    simp [complete_n8n_request, he]
  · intro h1 h2 msg ho
    subst h1
    subst h2
    subst ho
    rfl
  · intro h1 h2 ho
    subst h1
    subst h2
    rcases ho with h | h <;> subst h <;> rfl

/-- C9 witness: concrete instances of the missing-url `ValueError` case, the
malformed-JSON `json.JSONDecodeError` case (a `ValueError`, so its own decode
message is substituted), and the timeout case (a non-`ValueError`, so the
fixed text is substituted). -/
theorem complete_n8n_request_error_contract_witness :
    complete_n8n_request false true .timeout Payload.null "rid" 3
      = format_n8n_response "N8N_WEBHOOK_URL is required when CHAT_PROVIDER=n8n"
          Payload.null "rid" 3 false
    ∧ complete_n8n_request true true (.malformedJson "Expecting value: line 1 column 1 (char 0)")
        Payload.null "rid" 3
      = format_n8n_response "Expecting value: line 1 column 1 (char 0)"
          Payload.null "rid" 3 false
    ∧ complete_n8n_request true true .timeout Payload.null "rid" 3
      = format_n8n_response "There was an error contacting the n8n service. Please try again."
          Payload.null "rid" 3 false :=
  ⟨(complete_n8n_request_error_contract false true .timeout Payload.null "rid" 3).2.1 rfl
  , (complete_n8n_request_error_contract true true
        (.malformedJson "Expecting value: line 1 column 1 (char 0)")
        Payload.null "rid" 3).2.2.2.2.2.1 rfl rfl
        "Expecting value: line 1 column 1 (char 0)" rfl
  , (complete_n8n_request_error_contract true true .timeout Payload.null "rid" 3).2.2.2.2.2.2
      rfl rfl (Or.inl rfl)⟩

/-- C10: `_extract_n8n_output` on a non-empty list payload returns the
extraction of the list's first element only, ignoring all later elements;
on the empty list and on `None` it returns the empty string. -/
theorem extract_n8n_output_list_first
    : (∀ (x : Payload) (xs ys : List Payload),
        extract_n8n_output (.list (x :: xs)) = extract_n8n_output (.list (x :: ys)))
    ∧ (∀ (x : Payload) (xs : List Payload),
        extract_n8n_output (.list (x :: xs)) = extract_n8n_output x)
    ∧ extract_n8n_output (.list []) = ""
    ∧ extract_n8n_output .null = "" := by
  refine ⟨fun x xs ys => ?_, fun x xs => ?_, ?_, ?_⟩ <;> simp [extract_n8n_output]

end Gateway
